import Mathlib

/-!
Shallow embedding of the status-aggregation and performance-data engine of
the `monitoringplugin` Go package (inexio/go-monitoringplugin), together
with theorems checking the specification's claims against it.

The embedding follows the current sources: `response.go` (status constants,
`Response`, `updateStatusCode`, `UpdateStatus` and friends, `validate`,
`validateMessages`, `sortMessagesByStatus`, `CheckThresholds`,
`AddPerformanceDataPoint`, `StatusCode2Text`), `thresholds.go`
(`Thresholds`, `CheckValue`, `Validate`, `getRange`) and
`performance_data.go` (`performanceDataPointKey`, `performanceData.add`,
`PerformanceDataPoint` with `Validate`, `Name`, `CheckThresholds`,
`output`).

Conventions of the embedding:
* Go `int` is modelled as `Int` (no overflow is relevant here).
* The generic type parameter `T cmp.Ordered` of `Thresholds[T]` is modelled
  by a `LinearOrder`; `PerformanceDataPoint[T]` is instantiated at `Int`,
  a faithful ordered instance (`fmt.Sprint` of an `int` is `toString`).
* Go strings are Lean `String`s; character scans work on `String.data` so
  that everything reduces in the kernel.
* Functions that mutate their receiver become functions returning the new
  value; functions returning `error` return an `Option`/pair with an error
  component, `none` meaning the Go `nil` error.
-/

namespace GoMonitoringPlugin

/-- Status constant `OK` (Go: `OK = iota` = 0). -/
def OK : Int := 0

/-- Status constant `WARNING` (= 1). -/
def WARNING : Int := 1

/-- Status constant `CRITICAL` (= 2). -/
def CRITICAL : Int := 2

/-- Status constant `UNKNOWN` (= 3). -/
def UNKNOWN : Int := 3

/-- Go's `cmp.Compare`: -1 if `x < y`, 1 if `x > y`, else 0. -/
def cmpCompare {α : Type} [LinearOrder α] (x y : α) : Int :=
  if x < y then -1 else if y < x then 1 else 0

/-- Go `StatusCode2Text` from response.go: maps a status code to its name. -/
def StatusCode2Text (statusCode : Int) : String :=
  if statusCode = OK then "OK"
  else if statusCode = WARNING then "WARNING"
  else if statusCode = CRITICAL then "CRITICAL"
  else "UNKNOWN"

/-- The clamping step inside `updateStatusCode`: anything outside
`[OK, UNKNOWN]` becomes `UNKNOWN`. -/
def clampStatus (statusCode : Int) : Int :=
  if statusCode < OK ∨ statusCode > UNKNOWN then UNKNOWN else statusCode

/-- Core of `Response.updateStatusCode` from response.go, on the stored
status-code field: CRITICAL is absorbing, a proposed CRITICAL wins,
otherwise the proposal is clamped to `[OK, UNKNOWN]` and only a larger
value replaces the current one. -/
def updateStatusCodeInt (current statusCode : Int) : Int :=
  if current = CRITICAL then current
  else if statusCode = CRITICAL then statusCode
  else
    let statusCode := clampStatus statusCode
    if statusCode > current then statusCode else current

/-- Feeding a sequence of status codes through `updateStatusCode`,
starting from the initial status `OK` set by `NewResponse`. -/
def mergeStatusSeq (l : List Int) : Int :=
  l.foldl updateStatusCodeInt OK

/-- Go `Thresholds[T]` from thresholds.go: four bound values, each with its
own presence flag. -/
structure Thresholds (T : Type) where
  WarningMin : T
  WarningMax : T
  CriticalMin : T
  CriticalMax : T
  hasWarnMin : Bool
  hasWarnMax : Bool
  hasCritMin : Bool
  hasCritMax : Bool
deriving Repr, DecidableEq

/-- Go `NewThresholds` from thresholds.go: all four bounds set and present. -/
def NewThresholds {T : Type} (warningMin warningMax criticalMin criticalMax : T) :
    Thresholds T :=
  { WarningMin := warningMin, WarningMax := warningMax,
    CriticalMin := criticalMin, CriticalMax := criticalMax,
    hasWarnMin := true, hasWarnMax := true,
    hasCritMin := true, hasCritMax := true }

/-- The Go zero value of `Thresholds[T]` at `T = Int`: zero bounds, all
presence flags false (this is what a fresh `PerformanceDataPoint` holds). -/
def zeroThresholds : Thresholds Int :=
  { WarningMin := 0, WarningMax := 0, CriticalMin := 0, CriticalMax := 0,
    hasWarnMin := false, hasWarnMax := false,
    hasCritMin := false, hasCritMax := false }

/-- Go `Thresholds.UseWarning` from thresholds.go. -/
def Thresholds.UseWarning {T : Type} (c : Thresholds T) (useMin useMax : Bool) :
    Thresholds T :=
  { c with hasWarnMin := useMin, hasWarnMax := useMax }

/-- Go `Thresholds.UseCritical` from thresholds.go. -/
def Thresholds.UseCritical {T : Type} (c : Thresholds T) (useMin useMax : Bool) :
    Thresholds T :=
  { c with hasCritMin := useMin, hasCritMax := useMax }

/-- Go `Thresholds.HasWarning` from thresholds.go. -/
def Thresholds.HasWarning {T : Type} (c : Thresholds T) : Bool :=
  c.hasWarnMax || c.hasWarnMin

/-- Go `Thresholds.HasCritical` from thresholds.go. -/
def Thresholds.HasCritical {T : Type} (c : Thresholds T) : Bool :=
  c.hasCritMax || c.hasCritMin

/-- Go `Thresholds.IsEmpty` from thresholds.go. -/
def Thresholds.IsEmpty {T : Type} (c : Thresholds T) : Bool :=
  !c.HasWarning && !c.HasCritical

/-- Go `Thresholds.Validate` from thresholds.go: returns the first violated
ordering invariant as an error string, `none` when valid. -/
def Thresholds.Validate {T : Type} [LinearOrder T] (c : Thresholds T) :
    Option String :=
  if c.hasWarnMin ∧ c.hasWarnMax ∧ cmpCompare c.WarningMin c.WarningMax = 1 then
    some "warning min and max are invalid"
  else if c.hasCritMin ∧ c.hasCritMax ∧ cmpCompare c.CriticalMin c.CriticalMax = 1 then
    some "critical min and max are invalid"
  else if c.hasCritMin ∧ c.hasWarnMin ∧ cmpCompare c.CriticalMin c.WarningMin = 1 then
    some "critical and warning min are invalid"
  else if c.hasWarnMax ∧ c.hasCritMax ∧ cmpCompare c.CriticalMax c.WarningMax = -1 then
    some "critical and warning max are invalid"
  else
    none

/-- Go `Thresholds.CheckValue` from thresholds.go: critical-min, critical-max,
warning-min, warning-max, in that order, each only when present and only on
strict violation. -/
def Thresholds.CheckValue {T : Type} [LinearOrder T] (c : Thresholds T)
    (value : T) : Int :=
  if c.hasCritMin ∧ cmpCompare c.CriticalMin value = 1 then CRITICAL
  else if c.hasCritMax ∧ cmpCompare c.CriticalMax value = -1 then CRITICAL
  else if c.hasWarnMin ∧ cmpCompare c.WarningMin value = 1 then WARNING
  else if c.hasWarnMax ∧ cmpCompare c.WarningMax value = -1 then WARNING
  else OK

/-- Go `getRange` from thresholds.go (the common part of `getWarning` and
`getCritical`): renders the Nagios range syntax from an optional pair of
bounds. `mn`, `mx` are Go's `min`, `max` parameters. -/
def getRange {T : Type} [ToString T] (mn mx : T) (hasMin hasMax : Bool) :
    String :=
  if !hasMin && !hasMax then ""
  else
    (if hasMin then
       (if toString mn ≠ "0" ∨ !hasMax then toString mn ++ ":" else "")
     else "~:")
    ++ (if hasMax then toString mx else "")

/-- Go `Thresholds.getWarning` from thresholds.go. -/
def Thresholds.getWarning {T : Type} [ToString T] (c : Thresholds T) : String :=
  getRange c.WarningMin c.WarningMax c.hasWarnMin c.hasWarnMax

/-- Go `Thresholds.getCritical` from thresholds.go. -/
def Thresholds.getCritical {T : Type} [ToString T] (c : Thresholds T) : String :=
  getRange c.CriticalMin c.CriticalMax c.hasCritMin c.hasCritMax

/-- Character scan used via `reInvalidMetricLabel = regexp.MustCompile("([='])")`
on metric and label strings. -/
def hasInvalidMetricLabelChar (s : String) : Bool :=
  s.data.any (fun c => c = '=' || c = '\'')

/-- Character scan used via `reInvalidUnit = regexp.MustCompile("([0-9;'\"])")`
on the unit string. -/
def hasInvalidUnitChar (s : String) : Bool :=
  s.data.any (fun c => c.isDigit || c = ';' || c = '\'' || c = '"')

/-- Go `performanceDataPointKey` from performance_data.go: the composite
(metric, label) key. -/
structure performanceDataPointKey where
  Metric : String
  Label : String
deriving Repr, DecidableEq

/-- Go `newPerformanceDataPointKey` from performance_data.go. -/
def newPerformanceDataPointKey (metric label : String) : performanceDataPointKey :=
  { Metric := metric, Label := label }

/-- The `String()` method of `performanceDataPointKey`: the metric alone,
or `"<metric> and label <label>"` when a label is set. -/
def performanceDataPointKey.str (k : performanceDataPointKey) : String :=
  if k.Label = "" then k.Metric
  else k.Metric ++ " and label " ++ k.Label

/-- Go `PerformanceDataPoint[T]` from performance_data.go, instantiated at
`T = Int`. -/
structure PerformanceDataPoint where
  Metric : String
  Label : String
  Value : Int
  Unit : String
  Thresholds : Thresholds Int
  Min : Int
  Max : Int
  hasMin : Bool
  hasMax : Bool
deriving Repr, DecidableEq

/-- Go `NewPerformanceDataPoint` from performance_data.go: only metric and
value are set; the remaining fields are Go zero values. -/
def NewPerformanceDataPoint (metric : String) (value : Int) :
    PerformanceDataPoint :=
  { Metric := metric, Label := "", Value := value, Unit := "",
    Thresholds := zeroThresholds, Min := 0, Max := 0,
    hasMin := false, hasMax := false }

/-- Go `PerformanceDataPoint.SetUnit` from performance_data.go. -/
def PerformanceDataPoint.SetUnit (p : PerformanceDataPoint) (unit : String) :
    PerformanceDataPoint :=
  { p with Unit := unit }

/-- Go `PerformanceDataPoint.SetMin` from performance_data.go. -/
def PerformanceDataPoint.SetMin (p : PerformanceDataPoint) (mn : Int) :
    PerformanceDataPoint :=
  { p with Min := mn, hasMin := true }

/-- Go `PerformanceDataPoint.SetMax` from performance_data.go. -/
def PerformanceDataPoint.SetMax (p : PerformanceDataPoint) (mx : Int) :
    PerformanceDataPoint :=
  { p with Max := mx, hasMax := true }

/-- Go `PerformanceDataPoint.SetLabel` from performance_data.go. -/
def PerformanceDataPoint.SetLabel (p : PerformanceDataPoint) (label : String) :
    PerformanceDataPoint :=
  { p with Label := label }

/-- Go `PerformanceDataPoint.SetThresholds` from performance_data.go. -/
def PerformanceDataPoint.SetThresholds (p : PerformanceDataPoint)
    (thresholds : GoMonitoringPlugin.Thresholds Int) : PerformanceDataPoint :=
  { p with Thresholds := thresholds }

/-- Go `PerformanceDataPoint.HasThresholds` from performance_data.go. -/
def PerformanceDataPoint.HasThresholds (p : PerformanceDataPoint) : Bool :=
  !p.Thresholds.IsEmpty

/-- The `key()` method of `PerformanceDataPoint`. -/
def PerformanceDataPoint.key (p : PerformanceDataPoint) :
    performanceDataPointKey :=
  newPerformanceDataPointKey p.Metric p.Label

/-- Go `PerformanceDataPoint.Name` from performance_data.go: metric alone, or
`"<metric> (<label>)"` when a label is set. -/
def PerformanceDataPoint.Name (p : PerformanceDataPoint) : String :=
  if p.Label = "" then p.Metric
  else p.Metric ++ " (" ++ p.Label ++ ")"

/-- Go `PerformanceDataPoint.CheckThresholds` from performance_data.go. -/
def PerformanceDataPoint.CheckThresholds (p : PerformanceDataPoint) : Int :=
  p.Thresholds.CheckValue p.Value

/-- Go `PerformanceDataPoint.Validate` from performance_data.go: empty-metric
check, invalid characters in metric/label/unit, value against min/max, and
threshold validation. Returns the Go error string, `none` when valid. -/
def PerformanceDataPoint.Validate (p : PerformanceDataPoint) : Option String :=
  if p.Metric = "" then
    some "data point metric cannot be an empty string"
  else if hasInvalidMetricLabelChar p.Metric then
    some "metric contains invalid character"
  else if hasInvalidMetricLabelChar p.Label then
    some "metric contains invalid character"
  else if hasInvalidUnitChar p.Unit then
    some "unit can not contain numbers, semicolon or quotes"
  else if p.hasMin ∧ cmpCompare p.Min p.Value = 1 then
    some "value cannot be smaller than min"
  else if p.hasMax ∧ cmpCompare p.Max p.Value = -1 then
    some "value cannot be larger than max"
  else if p.hasMin ∧ p.hasMax ∧ cmpCompare p.Min p.Max = 1 then
    some "min cannot be larger than max"
  else if p.HasThresholds then
    match p.Thresholds.Validate with
    | some e => some ("thresholds are invalid: " ++ e)
    | none => none
  else
    none

/-- Go `PerformanceDataPoint.output` from performance_data.go: the wire format
of one point. In JSON-label mode the key is `json.Marshal` of the key
struct (`label` has `omitempty`); JSON escaping of special characters in
metric/label is not modelled (metric and label are validated to exclude
quote-relevant characters used by the tests). -/
def PerformanceDataPoint.output (p : PerformanceDataPoint) (jsonLabel : Bool) :
    String :=
  let head :=
    if jsonLabel then
      "'\x7b\"metric\":\"" ++ p.Metric ++ "\""
        ++ (if p.Label ≠ "" then ",\"label\":\"" ++ p.Label ++ "\"" else "")
        ++ "\x7d'"
    else
      "'" ++ p.Metric ++ (if p.Label ≠ "" then "_" ++ p.Label else "") ++ "'"
  let head := head ++ "=" ++ toString p.Value ++ p.Unit
  if p.HasThresholds || p.hasMax || p.hasMin then
    head ++ ";" ++ (if p.Thresholds.HasWarning then p.Thresholds.getWarning else "")
         ++ ";" ++ (if p.Thresholds.HasCritical then p.Thresholds.getCritical else "")
         ++ ";" ++ (if p.hasMin then toString p.Min else "")
         ++ ";" ++ (if p.hasMax then toString p.Max else "")
  else head

/-- The error returned by `performanceData.add`, as a structured value:
either the wrapped validation error of the point, or the duplicate-key
error carrying the offending composite key (Go formats the key into the
message `"a performance data point with the metric '%s' does already
exist"`). -/
inductive AddPointError where
  | invalidPoint (msg : String)
  | duplicateKey (key : performanceDataPointKey)
deriving Repr, DecidableEq

/-- Go `performanceData` from performance_data.go: the key-to-index map
(modelled as an association list, which `add` keeps duplicate-free) and
the insertion-ordered list of points. -/
structure performanceData where
  keys : List (performanceDataPointKey × Nat)
  points : List PerformanceDataPoint
deriving Repr, DecidableEq

/-- Go `newPerformanceData` from performance_data.go. -/
def newPerformanceData : performanceData :=
  { keys := [], points := [] }

/-- Lookup in the key map, modelling `_, ok := p.keys[key]`. -/
def performanceData.hasKey (pd : performanceData)
    (k : performanceDataPointKey) : Bool :=
  (pd.keys.find? (fun e => e.1 = k)).isSome

/-- Go `performanceData.add` from performance_data.go: validate the point,
reject a duplicate composite key, otherwise record the key-to-index
mapping and append the point. The first component is the (possibly
updated) store, the second the error (`none` on success). -/
def performanceData.add (pd : performanceData) (point : PerformanceDataPoint) :
    performanceData × Option AddPointError :=
  match point.Validate with
  | some e =>
      (pd, some (.invalidPoint ("given performance data point is not valid: " ++ e)))
  | none =>
      let key := point.key
      if pd.hasKey key then
        (pd, some (.duplicateKey key))
      else
        ({ keys := pd.keys ++ [(key, pd.points.length)],
           points := pd.points ++ [point] }, none)

/-- Go `OutputMessage` from response.go. -/
structure OutputMessage where
  Status : Int
  Message : String
deriving Repr, DecidableEq

/-- Go `InvalidCharacterBehavior` from response.go (the five documented
policies; `SetInvalidCharacterBehavior` rejects anything else, so the
stored field is always one of these). -/
inductive InvalidCharacterBehavior where
  | invalidCharacterRemove
  | invalidCharacterReplace
  | invalidCharacterRemoveMessage
  | invalidCharacterReplaceWithError
  | invalidCharacterReplaceWithErrorAndSetUNKNOWN
deriving Repr, DecidableEq

/-- Go `Response` from response.go. -/
structure Response where
  statusCode : Int
  defaultOkMessage : String
  outputMessages : List OutputMessage
  performanceData : performanceData
  outputDelimiter : String
  performanceDataJSONLabel : Bool
  printPerformanceData : Bool
  sortOutputMessagesByStatus : Bool
  invalidCharacterBehaviour : InvalidCharacterBehavior
  invalidCharacterReplaceChar : String
deriving Repr, DecidableEq

/-- Go `NewResponse` from response.go: status OK, the given default OK
message, empty store, printing and sorting enabled, remove-invalid-character
policy, newline delimiter (via `OutputDelimiterMultiline`). -/
def NewResponse (defaultOkMessage : String) : Response :=
  { statusCode := OK,
    defaultOkMessage := defaultOkMessage,
    outputMessages := [],
    performanceData := newPerformanceData,
    outputDelimiter := "\n",
    performanceDataJSONLabel := false,
    printPerformanceData := true,
    sortOutputMessagesByStatus := true,
    invalidCharacterBehaviour := .invalidCharacterRemove,
    invalidCharacterReplaceChar := "" }

/-- Go `Response.updateStatusCode` from response.go. -/
def Response.updateStatusCode (r : Response) (statusCode : Int) : Response :=
  { r with statusCode := updateStatusCodeInt r.statusCode statusCode }

/-- Go `Response.UpdateStatus` from response.go: merge the status code, and
append the (unclamped) status with the message when the message is
non-empty. -/
def Response.UpdateStatus (r : Response) (statusCode : Int)
    (statusMessage : String) : Response :=
  let r := r.updateStatusCode statusCode
  if statusMessage ≠ "" then
    { r with outputMessages :=
        r.outputMessages ++ [{ Status := statusCode, Message := statusMessage }] }
  else r

/-- Go `Response.UpdateStatusIf` from response.go. -/
def Response.UpdateStatusIf (r : Response) (condition : Bool)
    (statusCode : Int) (statusMessage : String) : Response × Bool :=
  (if condition then r.UpdateStatus statusCode statusMessage else r, condition)

/-- Go `Response.UpdateStatusIfNot` from response.go. -/
def Response.UpdateStatusIfNot (r : Response) (condition : Bool)
    (statusCode : Int) (statusMessage : String) : Response × Bool :=
  (if !condition then r.UpdateStatus statusCode statusMessage else r, !condition)

/-- Go `Response.UpdateStatusOnError` from response.go; the Go `error`
argument is modelled as `Option String` (`none` = nil error). -/
def Response.UpdateStatusOnError (r : Response) (err : Option String)
    (statusCode : Int) (statusMessage : String) (includeErrorMessage : Bool) :
    Response × Bool :=
  match err with
  | none => (r, false)
  | some errText =>
      let msg :=
        if includeErrorMessage then
          if statusMessage ≠ "" then
            statusMessage ++ " (error: " ++ errText ++ ")"
          else errText
        else statusMessage
      (r.UpdateStatus statusCode msg, true)

/-- Go `Response.CheckThresholds` from response.go: evaluate the point's
thresholds and, on a non-OK result, update the status with the
out-of-threshold message. -/
def Response.CheckThresholds (r : Response) (point : PerformanceDataPoint) :
    Response :=
  let res := point.CheckThresholds
  if res ≠ OK then
    r.UpdateStatus res
      (point.Name ++ " is outside of " ++ StatusCode2Text res ++ " threshold")
  else r

/-- Go `Response.AddPerformanceDataPoint` from response.go: delegate to
`performanceData.add` (Go wraps a returned error with the prefix
`"failed to add performance data point: "`), then, when the point has
thresholds, run `CheckThresholds`. -/
def Response.AddPerformanceDataPoint (r : Response)
    (point : PerformanceDataPoint) : Response × Option AddPointError :=
  match r.performanceData.add point with
  | (_, some e) => (r, some e)
  | (pd, none) =>
      let r := { r with performanceData := pd }
      if point.HasThresholds then (r.CheckThresholds point, none)
      else (r, none)

/-- Go `Response.SetInvalidCharacterBehavior` from response.go: the replace
policy requires a non-empty replacement character (then falls through to
setting the behaviour); the other policies are set directly. The Go
`default` branch rejecting unknown integers cannot arise for the inductive
behaviour type. -/
def Response.SetInvalidCharacterBehavior (r : Response)
    (behavior : InvalidCharacterBehavior) (replaceCharacter : String) :
    Response × Option String :=
  match behavior with
  | .invalidCharacterReplace =>
      if replaceCharacter = "" then (r, some "empty replace character set")
      else ({ r with invalidCharacterReplaceChar := replaceCharacter,
                     invalidCharacterBehaviour := behavior }, none)
  | _ => ({ r with invalidCharacterBehaviour := behavior }, none)

/-- Go `strings.Contains(s, "|")` on the message text. -/
def hasPipe (s : String) : Bool :=
  s.data.any (fun c => c = '|')

/-- Go `strings.ReplaceAll(s, "|", repl)`: every `'|'` is replaced by the
replacement string. -/
def replaceAllPipe (s repl : String) : String :=
  ⟨s.data.foldr (fun c acc => if c = '|' then repl.data ++ acc else c :: acc) []⟩

/-- The loop body of `Response.validateMessages` from response.go, with the
Go accumulator slice made explicit. The first component of the result is
`some UNKNOWN` when the `InvalidCharacterReplaceWithErrorAndSetUNKNOWN`
branch assigned the response's status code, `none` otherwise; the second is
the final message slice. The `ReplaceWithError` branches discard the
accumulator and break out of the loop. -/
def validateMessagesLoop (b : InvalidCharacterBehavior) (rc : String) :
    List OutputMessage → List OutputMessage → Option Int × List OutputMessage
  | acc, [] => (none, acc)
  | acc, message :: rest =>
    if !hasPipe message.Message then
      validateMessagesLoop b rc (acc ++ [message]) rest
    else
      match b with
      | .invalidCharacterReplace =>
          let newMessage := replaceAllPipe message.Message rc
          if newMessage ≠ "" then
            validateMessagesLoop b rc
              (acc ++ [{ Status := message.Status, Message := newMessage }]) rest
          else
            validateMessagesLoop b rc acc rest
      | .invalidCharacterRemoveMessage =>
          validateMessagesLoop b rc acc rest
      | .invalidCharacterReplaceWithErrorAndSetUNKNOWN =>
          (some UNKNOWN,
           [{ Status := UNKNOWN,
              Message := "output message contains invalid character" }])
      | .invalidCharacterReplaceWithError =>
          (none,
           [{ Status := message.Status,
              Message := "output message contains invalid character" }])
      | .invalidCharacterRemove =>
          let newMessage := replaceAllPipe message.Message ""
          if newMessage ≠ "" then
            validateMessagesLoop b rc
              (acc ++ [{ Status := message.Status, Message := newMessage }]) rest
          else
            validateMessagesLoop b rc acc rest

/-- Go `validateMessages` on a plain message list (accumulator starts empty). -/
def validateMessagesList (b : InvalidCharacterBehavior) (rc : String)
    (l : List OutputMessage) : Option Int × List OutputMessage :=
  validateMessagesLoop b rc [] l

/-- Go `Response.validateMessages` from response.go. -/
def Response.validateMessages (r : Response) : Response :=
  let res := validateMessagesList r.invalidCharacterBehaviour
    r.invalidCharacterReplaceChar r.outputMessages
  { r with statusCode := res.1.getD r.statusCode, outputMessages := res.2 }

/-- The comparator passed to `slices.SortStableFunc` in
`Response.sortMessagesByStatus`: CRITICAL first regardless of numeric
encoding, the rest by descending status. -/
def sortCmp (a b : OutputMessage) : Int :=
  if a.Status = CRITICAL ∧ b.Status ≠ CRITICAL then -1
  else if a.Status ≠ CRITICAL ∧ b.Status = CRITICAL then 1
  else cmpCompare b.Status a.Status

/-- Stable insertion of a message in front of the first element it compares
less-or-equal to. -/
def sortInsert (x : OutputMessage) : List OutputMessage → List OutputMessage
  | [] => [x]
  | y :: ys => if sortCmp x y ≤ 0 then x :: y :: ys else y :: sortInsert x ys

/-- Go `Response.sortMessagesByStatus` from response.go on the message list:
Go's `slices.SortStableFunc` is a stable sort with respect to `sortCmp`;
it is modelled by the (stable) insertion sort, which produces the same,
uniquely determined, stably sorted list. -/
def sortMessagesByStatus : List OutputMessage → List OutputMessage
  | [] => []
  | x :: xs => sortInsert x (sortMessagesByStatus xs)

/-- The tail of `Response.validate` from response.go: run
`validateMessages`, then sort the messages when sorting is enabled. -/
def Response.validateRest (r : Response) : Response :=
  let r := r.validateMessages
  if r.sortOutputMessagesByStatus then
    { r with outputMessages := sortMessagesByStatus r.outputMessages }
  else r

/-- Go `Response.validate` from response.go: apply the invalid-character
policy to the default OK message (the `ReplaceWithErrorAndSetUNKNOWN`
branch sets the status to UNKNOWN, assigns a singleton message slice,
immediately overwrites it with nil and returns early), then validate and
optionally sort the stored messages. -/
def Response.validate (r : Response) : Response :=
  if hasPipe r.defaultOkMessage then
    match r.invalidCharacterBehaviour with
    | .invalidCharacterReplace =>
        Response.validateRest
          { r with defaultOkMessage :=
              replaceAllPipe r.defaultOkMessage r.invalidCharacterReplaceChar }
    | .invalidCharacterRemoveMessage =>
        Response.validateRest { r with defaultOkMessage := "" }
    | .invalidCharacterReplaceWithError =>
        Response.validateRest
          { r with defaultOkMessage :=
              "default output message contains invalid character" }
    | .invalidCharacterReplaceWithErrorAndSetUNKNOWN =>
        { r with statusCode := UNKNOWN, outputMessages := [] }
    | .invalidCharacterRemove =>
        Response.validateRest
          { r with defaultOkMessage := replaceAllPipe r.defaultOkMessage "" }
  else
    Response.validateRest r

/-- One mutating operation on a `Response`, covering the operations named
by the specification (the error argument of `UpdateStatusOnError` is an
`Option String`, the point of `AddPerformanceDataPoint` an arbitrary
point). -/
inductive ResponseOp where
  | updateStatus (statusCode : Int) (statusMessage : String)
  | updateStatusIf (condition : Bool) (statusCode : Int) (statusMessage : String)
  | updateStatusIfNot (condition : Bool) (statusCode : Int) (statusMessage : String)
  | updateStatusOnError (err : Option String) (statusCode : Int)
      (statusMessage : String) (includeErrorMessage : Bool)
  | addPerformanceDataPoint (point : PerformanceDataPoint)
  | validate
deriving Repr

/-- Apply one operation to a response. -/
def applyOp (r : Response) (op : ResponseOp) : Response :=
  match op with
  | .updateStatus c m => r.UpdateStatus c m
  | .updateStatusIf cond c m => (r.UpdateStatusIf cond c m).1
  | .updateStatusIfNot cond c m => (r.UpdateStatusIfNot cond c m).1
  | .updateStatusOnError e c m inc => (r.UpdateStatusOnError e c m inc).1
  | .addPerformanceDataPoint p => (r.AddPerformanceDataPoint p).1
  | .validate => r.validate

/-! ### Helper lemmas -/

theorem cmpCompare_eq_one_iff {α : Type} [LinearOrder α] (x y : α) :
    cmpCompare x y = 1 ↔ y < x := by
  unfold cmpCompare
  rcases lt_trichotomy x y with h | h | h
  · simp [h, not_lt_of_gt h]
  · simp [h, lt_irrefl]
  · simp [h, not_lt_of_gt h]

theorem cmpCompare_eq_neg_one_iff {α : Type} [LinearOrder α] (x y : α) :
    cmpCompare x y = -1 ↔ x < y := by
  unfold cmpCompare
  rcases lt_trichotomy x y with h | h | h
  · simp [h]
  · simp [h, lt_irrefl]
  · simp [h, not_lt_of_gt h]

theorem foldl_updateStatus_from_critical (l : List Int) :
    l.foldl updateStatusCodeInt CRITICAL = CRITICAL := by
  induction l with
  | nil => rfl
  | cons c rest ih => simpa [updateStatusCodeInt] using ih

theorem updateStatusCodeInt_eq_max {cur c : Int} (h1 : cur ≠ CRITICAL)
    (h2 : c ≠ CRITICAL) :
    updateStatusCodeInt cur c = max cur (clampStatus c) := by
  unfold updateStatusCodeInt clampStatus
  rw [if_neg h1, if_neg h2, max_def]
  simp only [OK, UNKNOWN, CRITICAL] at *
  split_ifs <;> omega

theorem clampStatus_ne_critical {c : Int} (h : c ≠ CRITICAL) :
    clampStatus c ≠ CRITICAL := by
  unfold clampStatus
  simp only [OK, UNKNOWN, CRITICAL] at *
  split_ifs <;> omega

theorem foldl_update_spec (l : List Int) : ∀ cur : Int, cur ≠ CRITICAL →
    l.foldl updateStatusCodeInt cur
      = if CRITICAL ∈ l then CRITICAL else (l.map clampStatus).foldl max cur := by
  induction l with
  | nil => intro cur _; simp
  | cons c rest ih =>
    intro cur h
    by_cases hc : c = CRITICAL
    · subst hc
      have hstep : updateStatusCodeInt cur CRITICAL = CRITICAL := by
        unfold updateStatusCodeInt
        rw [if_neg h]
        simp
      simp [List.foldl_cons, hstep, foldl_updateStatus_from_critical,
        List.mem_cons]
    · have hmax : updateStatusCodeInt cur c = max cur (clampStatus c) :=
        updateStatusCodeInt_eq_max h hc
      have hne : max cur (clampStatus c) ≠ CRITICAL := by
        rcases max_choice cur (clampStatus c) with hh | hh <;> rw [hh]
        · exact h
        · exact clampStatus_ne_critical hc
      rw [List.foldl_cons, hmax, ih _ hne]
      simp [List.mem_cons, Ne.symm hc, hc]

/-! ### C1 -/

/-- C1: starting from OK, feeding a sequence of status codes through
`updateStatusCode` ends at CRITICAL exactly when some element is CRITICAL,
and otherwise at the maximum of the clamped encoded values; in particular
OK, UNKNOWN, CRITICAL ends at CRITICAL, and OK, CRITICAL, UNKNOWN stays at
CRITICAL. -/
theorem updateStatusCode_merge_spec :
    (∀ l : List Int, mergeStatusSeq l =
       if CRITICAL ∈ l then CRITICAL else (l.map clampStatus).foldl max OK)
    ∧ mergeStatusSeq [OK, UNKNOWN, CRITICAL] = CRITICAL
    ∧ mergeStatusSeq [OK, CRITICAL, UNKNOWN] = CRITICAL := by
  refine ⟨fun l => foldl_update_spec l OK (by decide), by decide, by decide⟩

/-! ### C2 -/

theorem checkValue_eq (c : Thresholds Int) (v : Int) :
    c.CheckValue v =
      if c.hasCritMin = true ∧ v < c.CriticalMin then CRITICAL
      else if c.hasCritMax = true ∧ c.CriticalMax < v then CRITICAL
      else if c.hasWarnMin = true ∧ v < c.WarningMin then WARNING
      else if c.hasWarnMax = true ∧ c.WarningMax < v then WARNING
      else OK := by
  simp only [Thresholds.CheckValue, cmpCompare_eq_one_iff, cmpCompare_eq_neg_one_iff]

theorem validate_none_facts (c : Thresholds Int) (hwm : c.hasWarnMin = true)
    (hwx : c.hasWarnMax = true) (hcm : c.hasCritMin = true)
    (hcx : c.hasCritMax = true) (h : c.Validate = none) :
    c.WarningMin ≤ c.WarningMax ∧ c.CriticalMin ≤ c.CriticalMax
      ∧ c.CriticalMin ≤ c.WarningMin ∧ c.WarningMax ≤ c.CriticalMax := by
  unfold Thresholds.Validate at h
  rw [hwm, hwx, hcm, hcx] at h
  simp only [cmpCompare_eq_one_iff, cmpCompare_eq_neg_one_iff] at h
  split_ifs at h with h1 h2 h3 h4
  simp only [not_and, not_lt, forall_const] at h1 h2 h3 h4
  exact ⟨h1, h2, h3, h4⟩

/-- C2 (amended): `CheckValue` evaluates the four bounds in the fixed
priority order criticalMin, criticalMax, warningMin, warningMax, returning
CRITICAL/WARNING on a strict violation of a present bound, and OK when no
bound is violated; with no bounds present the result is always OK; a value
exactly equal to a bound never violates that bound itself: with all four
bounds present and valid, equality with a warning bound yields OK and
equality with a critical bound never yields CRITICAL (though it may yield
WARNING via a warning bound, which is what the original claim's
"never flagged" misses). -/
theorem thresholds_checkValue_spec (c : Thresholds Int) (v : Int) :
    (c.CheckValue v =
       if c.hasCritMin = true ∧ v < c.CriticalMin then CRITICAL
       else if c.hasCritMax = true ∧ c.CriticalMax < v then CRITICAL
       else if c.hasWarnMin = true ∧ v < c.WarningMin then WARNING
       else if c.hasWarnMax = true ∧ c.WarningMax < v then WARNING
       else OK)
    ∧ (c.IsEmpty = true → c.CheckValue v = OK)
    ∧ (c.hasWarnMin = true → c.hasWarnMax = true → c.hasCritMin = true →
       c.hasCritMax = true → c.Validate = none →
       ((v = c.WarningMin ∨ v = c.WarningMax → c.CheckValue v = OK)
        ∧ (v = c.CriticalMin ∨ v = c.CriticalMax → c.CheckValue v ≠ CRITICAL))) := by
  refine ⟨checkValue_eq c v, ?_, ?_⟩
  · intro h
    simp only [Thresholds.IsEmpty, Thresholds.HasWarning, Thresholds.HasCritical,
      Bool.and_eq_true, Bool.not_eq_true', Bool.or_eq_false_iff] at h
    obtain ⟨⟨h1, h2⟩, h3, h4⟩ := h
    simp [Thresholds.CheckValue, h1, h2, h3, h4]
  · intro hwm hwx hcm hcx hval
    obtain ⟨o1, o2, o3, o4⟩ := validate_none_facts c hwm hwx hcm hcx hval
    rw [checkValue_eq]
    simp only [hwm, hwx, hcm, hcx, true_and, OK, WARNING, CRITICAL]
    constructor
    · rintro (rfl | rfl) <;> split_ifs <;> omega
    · rintro (rfl | rfl) <;> split_ifs <;> omega

/-- C2 counterexample to the claim as stated: for the (valid) thresholds
with warning range [5,10] and critical range [3,12] — the configuration of
the repository's own threshold test — the value 3 is exactly equal to the
present bound criticalMin, yet `CheckValue` flags it as WARNING, so a value
exactly equal to a bound is not "never flagged". -/
theorem thresholds_checkValue_boundary_counterexample :
    (NewThresholds (5 : Int) 10 3 12).Validate = none
    ∧ (NewThresholds (5 : Int) 10 3 12).hasCritMin = true
    ∧ (3 : Int) = (NewThresholds (5 : Int) 10 3 12).CriticalMin
    ∧ (NewThresholds (5 : Int) 10 3 12).CheckValue 3 = WARNING
    ∧ WARNING ≠ OK := by
  refine ⟨by decide, by decide, by decide, by decide, by decide⟩

/-- Witness for C2 at a concrete input: warning range [5,10], critical
range [3,12]; the boundary value 5 (= warningMin) is OK and the boundary
value 12 (= criticalMax) is not CRITICAL. -/
theorem thresholds_checkValue_spec_witness :
    (NewThresholds (5 : Int) 10 3 12).CheckValue 5 = OK
    ∧ (NewThresholds (5 : Int) 10 3 12).CheckValue 12 ≠ CRITICAL := by
  refine ⟨?_, ?_⟩
  · exact ((thresholds_checkValue_spec (NewThresholds (5 : Int) 10 3 12) 5).2.2
      rfl rfl rfl rfl (by decide)).1 (Or.inl (by decide))
  · exact ((thresholds_checkValue_spec (NewThresholds (5 : Int) 10 3 12) 12).2.2
      rfl rfl rfl rfl (by decide)).2 (Or.inr (by decide))

/-! ### C7 -/

/-- C7: the threshold range rendering `getRange` (used by `getWarning` and
`getCritical`) yields the empty string when both bounds are absent,
`"~:<max>"` when only the max is present, `"<min>:"` when only the min is
present, the bare `"<max>"` when both are present and the min renders as
`"0"`, and `"<min>:<max>"` otherwise. -/
theorem getRange_render_spec {T : Type} [ToString T] (mn mx : T) :
    ∀ hasMin hasMax : Bool,
    getRange mn mx hasMin hasMax =
      if hasMin = false ∧ hasMax = false then ""
      else if hasMin = false then "~:" ++ toString mx
      else if hasMax = false then toString mn ++ ":"
      else if toString mn = "0" then toString mx
      else toString mn ++ ":" ++ toString mx := by
  intro hasMin hasMax
  cases hasMin <;> cases hasMax <;>
    simp only [getRange, Bool.not_true, Bool.not_false, Bool.and_self,
      Bool.true_and, Bool.and_true, Bool.false_and, Bool.and_false, ne_eq,
      or_false, or_true, if_true, if_false, not_false_eq_true, and_self,
      and_false, false_and, String.empty_append, String.append_empty,
      reduceIte] <;>
    split_ifs <;> simp_all [String.empty_append]

/-! ### C8 -/

/-- C8: the point with metric "label1", value 10, unit "%", warning range
[0,80], critical range [0,90] and no min/max bounds renders in
non-JSON-label mode exactly as `'label1'=10%;80;90;;`. -/
theorem output_label1_example :
    (((NewPerformanceDataPoint "label1" 10).SetUnit "%").SetThresholds
        (NewThresholds 0 80 0 90)).output false = "'label1'=10%;80;90;;" := by
  decide

/-! ### C3 -/

theorem updateStatusCodeInt_range {cur : Int} (h0 : 0 ≤ cur) (h3 : cur ≤ 3)
    (c : Int) :
    0 ≤ updateStatusCodeInt cur c ∧ updateStatusCodeInt cur c ≤ 3 := by
  unfold updateStatusCodeInt clampStatus
  simp only [OK, UNKNOWN, CRITICAL]
  split_ifs <;> omega

theorem updateStatus_statusCode (r : Response) (c : Int) (m : String) :
    (r.UpdateStatus c m).statusCode = updateStatusCodeInt r.statusCode c := by
  simp only [Response.UpdateStatus, Response.updateStatusCode]
  split_ifs <;> rfl

theorem validateMessagesLoop_fst (b : InvalidCharacterBehavior) (rc : String) :
    ∀ (l acc : List OutputMessage),
      (validateMessagesLoop b rc acc l).1 = none
      ∨ (validateMessagesLoop b rc acc l).1 = some UNKNOWN := by
  intro l
  induction l with
  | nil => intro acc; left; rfl
  | cons m rest ih =>
    intro acc
    unfold validateMessagesLoop
    by_cases hp : hasPipe m.Message
    · simp only [hp, Bool.not_true]
      cases b
      · dsimp only
        split_ifs <;> exact ih _
      · dsimp only
        split_ifs <;> exact ih _
      · exact ih _
      · left; rfl
      · right; rfl
    · simp only [Bool.not_eq_true', Bool.not_eq_false] at hp
      simp only [hp, Bool.not_false, if_true]
      exact ih _

theorem validateRest_statusCode (r : Response) :
    (r.validateRest).statusCode = r.statusCode
    ∨ (r.validateRest).statusCode = UNKNOWN := by
  unfold Response.validateRest Response.validateMessages validateMessagesList
  rcases validateMessagesLoop_fst r.invalidCharacterBehaviour
    r.invalidCharacterReplaceChar r.outputMessages [] with h | h <;>
    (dsimp only; split_ifs <;> simp [h])

theorem validate_statusCode (r : Response) :
    (r.validate).statusCode = r.statusCode
    ∨ (r.validate).statusCode = UNKNOWN := by
  obtain ⟨sc, dm, om, pd, od, jl, ppd, so, icb, icr⟩ := r
  unfold Response.validate
  split_ifs with h
  · cases icb
    · exact validateRest_statusCode _
    · exact validateRest_statusCode _
    · exact validateRest_statusCode _
    · exact validateRest_statusCode _
    · right; rfl
  · exact validateRest_statusCode _

theorem addPerformanceDataPoint_statusCode (r : Response)
    (p : PerformanceDataPoint) :
    ((r.AddPerformanceDataPoint p).1).statusCode = r.statusCode
    ∨ ((r.AddPerformanceDataPoint p).1).statusCode
        = updateStatusCodeInt r.statusCode p.CheckThresholds := by
  unfold Response.AddPerformanceDataPoint
  rcases hadd : r.performanceData.add p with ⟨pd, e⟩
  cases e
  · simp only
    split_ifs
    · unfold Response.CheckThresholds
      dsimp only
      split_ifs
      · right; exact updateStatus_statusCode _ _ _
      · left; rfl
    · left; rfl
  · left; rfl

theorem applyOp_range {r : Response} (h0 : 0 ≤ r.statusCode)
    (h3 : r.statusCode ≤ 3) (op : ResponseOp) :
    0 ≤ (applyOp r op).statusCode ∧ (applyOp r op).statusCode ≤ 3 := by
  cases op with
  | updateStatus c m =>
      rw [applyOp, updateStatus_statusCode]
      exact updateStatusCodeInt_range h0 h3 c
  | updateStatusIf cond c m =>
      rw [applyOp]
      unfold Response.UpdateStatusIf
      split_ifs
      · rw [updateStatus_statusCode]; exact updateStatusCodeInt_range h0 h3 c
      · exact ⟨h0, h3⟩
  | updateStatusIfNot cond c m =>
      rw [applyOp]
      unfold Response.UpdateStatusIfNot
      split_ifs
      · rw [updateStatus_statusCode]; exact updateStatusCodeInt_range h0 h3 c
      · exact ⟨h0, h3⟩
  | updateStatusOnError e c m inc =>
      rw [applyOp]
      unfold Response.UpdateStatusOnError
      cases e
      · exact ⟨h0, h3⟩
      · rw [updateStatus_statusCode]; exact updateStatusCodeInt_range h0 h3 c
  | addPerformanceDataPoint p =>
      rcases addPerformanceDataPoint_statusCode r p with h | h <;> rw [applyOp, h]
      · exact ⟨h0, h3⟩
      · exact updateStatusCodeInt_range h0 h3 _
  | validate =>
      rcases validate_statusCode r with h | h <;> rw [applyOp, h]
      · exact ⟨h0, h3⟩
      · exact ⟨by decide, by decide⟩

theorem foldl_applyOp_range (ops : List ResponseOp) :
    ∀ r : Response, 0 ≤ r.statusCode → r.statusCode ≤ 3 →
      0 ≤ (ops.foldl applyOp r).statusCode
      ∧ (ops.foldl applyOp r).statusCode ≤ 3 := by
  induction ops with
  | nil => intro r h0 h3; exact ⟨h0, h3⟩
  | cons op rest ih =>
      intro r h0 h3
      obtain ⟨g0, g3⟩ := applyOp_range h0 h3 op
      exact ih _ g0 g3

/-- C3: for any sequence of status updates, conditional updates, error
updates, performance-data additions and validations applied to a fresh
response, with arbitrary integer status arguments, the stored status code
stays in 0..3, and so does the exit code taken after the final
`validate` run by `OutputAndExit`. -/
theorem response_statusCode_range_invariant (defaultOkMessage : String)
    (ops : List ResponseOp) :
    (0 ≤ (ops.foldl applyOp (NewResponse defaultOkMessage)).statusCode
     ∧ (ops.foldl applyOp (NewResponse defaultOkMessage)).statusCode ≤ 3)
    ∧ (0 ≤ ((ops.foldl applyOp (NewResponse defaultOkMessage)).validate).statusCode
       ∧ ((ops.foldl applyOp (NewResponse defaultOkMessage)).validate).statusCode ≤ 3) := by
  have hsc : (NewResponse defaultOkMessage).statusCode = 0 := rfl
  have h := foldl_applyOp_range ops (NewResponse defaultOkMessage)
    (by rw [hsc]) (by rw [hsc]; norm_num)
  exact ⟨h, applyOp_range h.1 h.2 .validate⟩

/-! ### C4 -/

theorem sortCmp_le_zero_iff (a b : OutputMessage) :
    sortCmp a b ≤ 0
      ↔ (a.Status = CRITICAL ∨ (b.Status ≠ CRITICAL ∧ b.Status ≤ a.Status)) := by
  unfold sortCmp cmpCompare
  simp only [CRITICAL]
  split_ifs <;> simp_all <;> omega

theorem sortCmp_trans {a b c : OutputMessage} (h1 : sortCmp a b ≤ 0)
    (h2 : sortCmp b c ≤ 0) : sortCmp a c ≤ 0 := by
  rw [sortCmp_le_zero_iff] at h1 h2 ⊢
  rcases h1 with h1 | ⟨hb, hba⟩
  · exact Or.inl h1
  · rcases h2 with h2 | ⟨hc, hcb⟩
    · exact absurd h2 hb
    · exact Or.inr ⟨hc, le_trans hcb hba⟩

theorem sortCmp_total (a b : OutputMessage) :
    sortCmp a b ≤ 0 ∨ sortCmp b a ≤ 0 := by
  rw [sortCmp_le_zero_iff, sortCmp_le_zero_iff]
  by_cases ha : a.Status = CRITICAL
  · exact Or.inl (Or.inl ha)
  · by_cases hb : b.Status = CRITICAL
    · exact Or.inr (Or.inl hb)
    · rcases le_total b.Status a.Status with h | h
      · exact Or.inl (Or.inr ⟨hb, h⟩)
      · exact Or.inr (Or.inr ⟨ha, h⟩)

theorem sortCmp_eq_zero_of_status_eq {a b : OutputMessage}
    (h : a.Status = b.Status) : sortCmp a b = 0 := by
  unfold sortCmp cmpCompare
  rw [h]
  simp only [CRITICAL]
  split_ifs <;> omega

theorem sortInsert_perm (x : OutputMessage) (l : List OutputMessage) :
    (sortInsert x l).Perm (x :: l) := by
  induction l with
  | nil => exact List.Perm.refl _
  | cons y ys ih =>
    unfold sortInsert
    split_ifs
    · exact List.Perm.refl _
    · exact (List.Perm.cons y ih).trans (List.Perm.swap x y ys)

theorem sortMessages_perm (l : List OutputMessage) :
    (sortMessagesByStatus l).Perm l := by
  induction l with
  | nil => exact List.Perm.refl _
  | cons x xs ih =>
    exact (sortInsert_perm x (sortMessagesByStatus xs)).trans (List.Perm.cons x ih)

theorem pairwise_sortInsert (x : OutputMessage) :
    ∀ l : List OutputMessage, l.Pairwise (sortCmp · · ≤ 0) →
      (sortInsert x l).Pairwise (sortCmp · · ≤ 0) := by
  intro l
  induction l with
  | nil => intro _; simp [sortInsert]
  | cons y ys ih =>
    intro hp
    rw [List.pairwise_cons] at hp
    obtain ⟨hy, hys⟩ := hp
    unfold sortInsert
    split_ifs with h
    · rw [List.pairwise_cons]
      refine ⟨?_, List.pairwise_cons.mpr ⟨hy, hys⟩⟩
      intro z hz
      rcases List.mem_cons.mp hz with rfl | hz
      · exact h
      · exact sortCmp_trans h (hy z hz)
    · rw [List.pairwise_cons]
      refine ⟨?_, ih hys⟩
      intro z hz
      rcases List.mem_cons.mp ((sortInsert_perm x ys).mem_iff.mp hz) with rfl | hz
      · rcases sortCmp_total y z with hyx | hxy
        · exact hyx
        · exact absurd hxy h
      · exact hy z hz

theorem pairwise_sortMessages (l : List OutputMessage) :
    (sortMessagesByStatus l).Pairwise (sortCmp · · ≤ 0) := by
  induction l with
  | nil => simp [sortMessagesByStatus]
  | cons x xs ih => exact pairwise_sortInsert x _ ih

theorem filter_sortInsert_of_status_eq (v : Int) (x : OutputMessage)
    (hx : x.Status = v) :
    ∀ l : List OutputMessage,
      (sortInsert x l).filter (fun m => decide (m.Status = v))
        = x :: l.filter (fun m => decide (m.Status = v)) := by
  intro l
  induction l with
  | nil => simp [sortInsert, hx]
  | cons y ys ih =>
    unfold sortInsert
    split_ifs with h
    · simp [List.filter_cons, hx]
    · have hne : y.Status ≠ v := by
        intro hyv
        have hz : sortCmp x y = 0 :=
          sortCmp_eq_zero_of_status_eq (by rw [hx, hyv])
        omega
      simp [List.filter_cons, hne, ih]

theorem filter_sortInsert_of_status_ne (v : Int) (x : OutputMessage)
    (hx : ¬ x.Status = v) :
    ∀ l : List OutputMessage,
      (sortInsert x l).filter (fun m => decide (m.Status = v))
        = l.filter (fun m => decide (m.Status = v)) := by
  intro l
  induction l with
  | nil => simp [sortInsert, hx]
  | cons y ys ih =>
    unfold sortInsert
    split_ifs with h
    · simp [List.filter_cons, hx]
    · simp [List.filter_cons, ih]

theorem filter_sortMessages (v : Int) (l : List OutputMessage) :
    (sortMessagesByStatus l).filter (fun m => decide (m.Status = v))
      = l.filter (fun m => decide (m.Status = v)) := by
  induction l with
  | nil => rfl
  | cons x xs ih =>
    by_cases hx : x.Status = v
    · show (sortInsert x (sortMessagesByStatus xs)).filter _ = _
      rw [filter_sortInsert_of_status_eq v x hx, ih]
      simp [List.filter_cons, hx]
    · show (sortInsert x (sortMessagesByStatus xs)).filter _ = _
      rw [filter_sortInsert_of_status_ne v x hx, ih]
      simp [List.filter_cons, hx]

/-- C4: `sortMessagesByStatus` (applied by `validate` when sorting is
enabled) sorts the stored messages stably: in the result every CRITICAL
message precedes every non-CRITICAL one and the remaining messages are in
descending status order; the result is a permutation of the input; and for
every status value the subsequence of messages with exactly that status is
unchanged (stability); moreover, with sorting enabled (and no invalid
character in the default OK message), `validate` produces exactly the
stable sort of the messages left by `validateMessages`. -/
theorem sortMessages_stable_spec (l : List OutputMessage) :
    ((sortMessagesByStatus l).Pairwise fun a b =>
        (b.Status = CRITICAL → a.Status = CRITICAL)
        ∧ (a.Status ≠ CRITICAL → b.Status ≠ CRITICAL → b.Status ≤ a.Status))
    ∧ (sortMessagesByStatus l).Perm l
    ∧ (∀ v : Int, (sortMessagesByStatus l).filter (fun m => decide (m.Status = v))
        = l.filter (fun m => decide (m.Status = v)))
    ∧ (∀ r : Response, r.sortOutputMessagesByStatus = true →
        hasPipe r.defaultOkMessage = false →
        (r.validate).outputMessages
          = sortMessagesByStatus (r.validateMessages).outputMessages) := by
  refine ⟨?_, sortMessages_perm l, fun v => filter_sortMessages v l, ?_⟩
  · refine (pairwise_sortMessages l).imp ?_
    intro a b hab
    rw [sortCmp_le_zero_iff] at hab
    constructor
    · intro hb
      rcases hab with h | ⟨hb', _⟩
      · exact h
      · exact absurd hb hb'
    · intro ha hb
      rcases hab with h | ⟨_, hle⟩
      · exact absurd h ha
      · exact hle
  · intro r hs hp
    unfold Response.validate
    rw [hp]
    simp only [Bool.false_eq_true, if_false]
    unfold Response.validateRest
    have hs' : (r.validateMessages).sortOutputMessagesByStatus = true := hs
    rw [if_pos hs']

/-! ### C5 -/

theorem find?_append_right_isSome {α : Type} (p : α → Bool) (a : α)
    (ha : p a = true) :
    ∀ l : List α, ((l ++ [a]).find? p).isSome = true := by
  intro l
  induction l with
  | nil => simp [List.find?, ha]
  | cons x xs ih =>
    rw [List.cons_append]
    cases hpx : p x
    · rw [List.find?_cons_of_neg _ (by simp [hpx])]
      exact ih
    · rw [List.find?_cons_of_pos _ hpx]
      rfl

theorem find?_append_right_none {α : Type} (p : α → Bool) (a : α)
    (ha : p a = false) :
    ∀ l : List α, (l.find? p).isSome = false →
      ((l ++ [a]).find? p).isSome = false := by
  intro l
  induction l with
  | nil => intro _; simp [List.find?, ha]
  | cons x xs ih =>
    intro h
    cases hpx : p x
    · rw [List.find?_cons_of_neg _ (by simp [hpx])] at h
      rw [List.cons_append, List.find?_cons_of_neg _ (by simp [hpx])]
      exact ih h
    · rw [List.find?_cons_of_pos _ hpx] at h
      simp at h

/-- C5: `performanceData.add` first validates the point and fails with the
wrapped validation error; on a valid point it fails with the duplicate-key
error — whose key carries the metric and the label, rendered by the key's
`String()` as the metric alone or `"<metric> and label <label>"` — exactly
when the composite key is already present, returning the store unchanged;
otherwise it appends the point and records the key-to-index mapping.
Consequently a second add with the same metric and label always fails,
while an add of a valid point with the same metric but a different (fresh)
label succeeds. -/
theorem performanceData_add_spec (pd : performanceData)
    (p q : PerformanceDataPoint) :
    (∀ e, p.Validate = some e →
       pd.add p = (pd, some (.invalidPoint
         ("given performance data point is not valid: " ++ e))))
    ∧ (p.Validate = none → pd.hasKey p.key = true →
       pd.add p = (pd, some (.duplicateKey p.key)))
    ∧ (p.Validate = none → pd.hasKey p.key = false →
       pd.add p = ({ keys := pd.keys ++ [(p.key, pd.points.length)],
                     points := pd.points ++ [p] }, none))
    ∧ (p.Validate = none → pd.hasKey p.key = false → q.key = p.key →
       ((pd.add p).1.add q).2 ≠ none)
    ∧ (p.Validate = none → q.Validate = none → pd.hasKey p.key = false →
       pd.hasKey q.key = false → q.key ≠ p.key →
       ((pd.add p).1.add q).2 = none)
    ∧ (p.key).str = (if p.Label = "" then p.Metric
         else p.Metric ++ " and label " ++ p.Label) := by
  refine ⟨?_, ?_, ?_, ?_, ?_, rfl⟩
  · intro e he
    simp [performanceData.add, he]
  · intro hv hk
    simp [performanceData.add, hv, hk]
  · intro hv hk
    simp [performanceData.add, hv, hk]
  · intro hv hk hqp
    have h1 : pd.add p = ({ keys := pd.keys ++ [(p.key, pd.points.length)],
                            points := pd.points ++ [p] }, none) := by
      simp [performanceData.add, hv, hk]
    rw [h1]
    cases hqv : q.Validate with
    | some e => simp [performanceData.add, hqv]
    | none =>
      have hk2 : (performanceData.mk
          (pd.keys ++ [(p.key, pd.points.length)]) (pd.points ++ [p])).hasKey
            q.key = true := by
        unfold performanceData.hasKey
        exact find?_append_right_isSome _ _ (by simp [hqp]) pd.keys
      simp [performanceData.add, hqv, hk2]
  · intro hv hqv hk hkq hne
    have h1 : pd.add p = ({ keys := pd.keys ++ [(p.key, pd.points.length)],
                            points := pd.points ++ [p] }, none) := by
      simp [performanceData.add, hv, hk]
    rw [h1]
    have hk2 : (performanceData.mk
        (pd.keys ++ [(p.key, pd.points.length)]) (pd.points ++ [p])).hasKey
          q.key = false := by
      unfold performanceData.hasKey
      exact find?_append_right_none _ _ (by simp [Ne.symm hne]) pd.keys hkq
    simp [performanceData.add, hqv, hk2]

/-- Witness for C5: in a fresh store, adding the point (metric, 10) twice
fails on the second add, while adding (metric, 10) with label tag1 after
the unlabelled point succeeds. -/
theorem performanceData_add_spec_witness :
    ((newPerformanceData.add (NewPerformanceDataPoint "metric" 10)).1.add
        (NewPerformanceDataPoint "metric" 10)).2 ≠ none
    ∧ ((newPerformanceData.add (NewPerformanceDataPoint "metric" 10)).1.add
        ((NewPerformanceDataPoint "metric" 10).SetLabel "tag1")).2 = none := by
  refine ⟨?_, ?_⟩
  · exact (performanceData_add_spec newPerformanceData
      (NewPerformanceDataPoint "metric" 10)
      (NewPerformanceDataPoint "metric" 10)).2.2.2.1
      (by decide) (by decide) rfl
  · exact (performanceData_add_spec newPerformanceData
      (NewPerformanceDataPoint "metric" 10)
      ((NewPerformanceDataPoint "metric" 10).SetLabel "tag1")).2.2.2.2.1
      (by decide) (by decide) (by decide) (by decide) (by decide)

/-! ### C6 -/

theorem append_threshold_ne_empty (s : String) : s ++ " threshold" ≠ "" := by
  intro h
  have hl := congrArg String.length h
  rw [String.length_append] at hl
  have h10 : (" threshold" : String).length = 10 := rfl
  have h0 : ("" : String).length = 0 := rfl
  omega

/-- C6: when `AddPerformanceDataPoint` succeeds on a point with thresholds,
it evaluates the thresholds against the point's value; on a non-OK result
it merges that status into the response and appends the message
`"<Name> is outside of <severity> threshold"`, where the name is the
metric alone or `"<metric> (<label>)"` with a label; on an OK result, or
for a point without thresholds, messages and status are unchanged. -/
theorem addPerformanceDataPoint_threshold_spec (r : Response)
    (p : PerformanceDataPoint)
    (hok : (r.AddPerformanceDataPoint p).2 = none) :
    (p.HasThresholds = true → p.CheckThresholds ≠ OK →
       ((r.AddPerformanceDataPoint p).1.outputMessages
          = r.outputMessages
            ++ [{ Status := p.CheckThresholds,
                  Message := (if p.Label = "" then p.Metric
                      else p.Metric ++ " (" ++ p.Label ++ ")")
                    ++ " is outside of " ++ StatusCode2Text p.CheckThresholds
                    ++ " threshold" }]
        ∧ (r.AddPerformanceDataPoint p).1.statusCode
            = updateStatusCodeInt r.statusCode p.CheckThresholds))
    ∧ (p.HasThresholds = true → p.CheckThresholds = OK →
       (r.AddPerformanceDataPoint p).1.outputMessages = r.outputMessages
       ∧ (r.AddPerformanceDataPoint p).1.statusCode = r.statusCode)
    ∧ (p.HasThresholds = false →
       (r.AddPerformanceDataPoint p).1.outputMessages = r.outputMessages
       ∧ (r.AddPerformanceDataPoint p).1.statusCode = r.statusCode) := by
  unfold Response.AddPerformanceDataPoint at hok ⊢
  rcases hadd : r.performanceData.add p with ⟨pd, e⟩
  simp only [hadd] at hok ⊢
  cases e with
  | some err => simp at hok
  | none =>
    dsimp only at hok ⊢
    refine ⟨?_, ?_, ?_⟩
    · intro hts hres
      rw [if_pos hts]
      unfold Response.CheckThresholds
      dsimp only
      rw [if_pos hres]
      unfold Response.UpdateStatus Response.updateStatusCode PerformanceDataPoint.Name
      rw [if_pos (append_threshold_ne_empty _)]
      exact ⟨rfl, rfl⟩
    · intro hts hres
      rw [if_pos hts]
      unfold Response.CheckThresholds
      dsimp only
      rw [if_neg (by simp [hres])]
      exact ⟨rfl, rfl⟩
    · intro hts
      rw [if_neg (by simp [hts])]
      exact ⟨rfl, rfl⟩

/-- Witness for C6: adding (temperature, 50) with warning bound 35 and
critical bound 40 to a fresh response stores the CRITICAL
out-of-threshold message and sets the status to CRITICAL. -/
theorem addPerformanceDataPoint_threshold_spec_witness :
    ((NewResponse "ok").AddPerformanceDataPoint
        ((NewPerformanceDataPoint "temperature" 50).SetThresholds
          (NewThresholds 0 35 0 40))).1.outputMessages
      = (NewResponse "ok").outputMessages
        ++ [{ Status := 2,
              Message := "temperature is outside of CRITICAL threshold" }]
    ∧ ((NewResponse "ok").AddPerformanceDataPoint
        ((NewPerformanceDataPoint "temperature" 50).SetThresholds
          (NewThresholds 0 35 0 40))).1.statusCode
      = updateStatusCodeInt (NewResponse "ok").statusCode 2 := by
  exact (addPerformanceDataPoint_threshold_spec (NewResponse "ok")
      ((NewPerformanceDataPoint "temperature" 50).SetThresholds
        (NewThresholds 0 35 0 40)) (by decide)).1 (by decide) (by decide)

/-- Witness for C4: the §8 scenario — WARNING "m1" then CRITICAL "m2" with
sorting enabled: after validation the CRITICAL-origin message sorts
first. -/
theorem sortMessages_stable_spec_witness :
    ((((NewResponse "ok").UpdateStatus WARNING "m1").UpdateStatus
        CRITICAL "m2").validate).outputMessages
      = [{ Status := CRITICAL, Message := "m2" },
         { Status := WARNING, Message := "m1" }] := by
  exact (((sortMessages_stable_spec []).2.2.2
    (((NewResponse "ok").UpdateStatus WARNING "m1").UpdateStatus CRITICAL "m2")
    (by decide) (by decide)).trans (by decide))

/-! ### C9 -/

theorem validateMessagesLoop_removeMessage (rc : String) :
    ∀ (l acc : List OutputMessage),
      validateMessagesLoop .invalidCharacterRemoveMessage rc acc l
        = (none, acc ++ l.filter (fun m => !hasPipe m.Message)) := by
  intro l
  induction l with
  | nil => intro acc; simp [validateMessagesLoop]
  | cons m rest ih =>
    intro acc
    unfold validateMessagesLoop
    by_cases hp : hasPipe m.Message
    · simp [hp, ih, List.filter_cons]
    · simp [hp, ih, List.filter_cons]

theorem validateMessagesLoop_remove (rc : String) :
    ∀ (l acc : List OutputMessage),
      validateMessagesLoop .invalidCharacterRemove rc acc l
        = (none, acc ++ l.filterMap (fun m =>
            if hasPipe m.Message then
              (if replaceAllPipe m.Message "" = "" then none
               else some { Status := m.Status,
                           Message := replaceAllPipe m.Message "" })
            else some m)) := by
  intro l
  induction l with
  | nil => intro acc; simp [validateMessagesLoop]
  | cons m rest ih =>
    intro acc
    unfold validateMessagesLoop
    by_cases hp : hasPipe m.Message
    · by_cases hemp : replaceAllPipe m.Message "" = ""
      · simp [hp, hemp, ih, List.filterMap_cons]
      · simp [hp, hemp, ih, List.filterMap_cons]
    · simp [hp, ih, List.filterMap_cons]

theorem validateRest_statusCode_of_none (r : Response)
    (h : (validateMessagesList r.invalidCharacterBehaviour
      r.invalidCharacterReplaceChar r.outputMessages).1 = none) :
    (r.validateRest).statusCode = r.statusCode := by
  unfold Response.validateRest Response.validateMessages
  dsimp only
  split_ifs <;> simp [h]

/-- C9 (amended): under the remove-message policy, validation drops
exactly the messages containing `'|'`, keeps the rest, and the status code
of the response is unchanged (so the status contribution such a message
made via `UpdateStatus` stays in effect); under the default remove policy
the `'|'` characters are stripped from each offending message's text, with
a message whose text becomes empty by the stripping dropped from the list
(which is what the original claim misses). -/
theorem validateMessages_remove_policies_spec (rc : String)
    (l : List OutputMessage) (r : Response) :
    (validateMessagesList .invalidCharacterRemoveMessage rc l
       = (none, l.filter (fun m => !hasPipe m.Message)))
    ∧ (r.invalidCharacterBehaviour = .invalidCharacterRemoveMessage →
        (r.validate).statusCode = r.statusCode)
    ∧ (validateMessagesList .invalidCharacterRemove rc l
       = (none, l.filterMap (fun m =>
           if hasPipe m.Message then
             (if replaceAllPipe m.Message "" = "" then none
              else some { Status := m.Status,
                          Message := replaceAllPipe m.Message "" })
           else some m))) := by
  refine ⟨validateMessagesLoop_removeMessage rc l [], ?_,
    validateMessagesLoop_remove rc l []⟩
  intro hb
  obtain ⟨sc, dm, om, pd, od, jl, ppd, so, icb, icr⟩ := r
  simp only at hb
  subst hb
  unfold Response.validate
  split_ifs with h
  · exact validateRest_statusCode_of_none _
      (by rw [show (validateMessagesList InvalidCharacterBehavior.invalidCharacterRemoveMessage icr om)
        = (validateMessagesLoop .invalidCharacterRemoveMessage icr [] om) from rfl,
        validateMessagesLoop_removeMessage])
  · exact validateRest_statusCode_of_none _
      (by rw [show (validateMessagesList InvalidCharacterBehavior.invalidCharacterRemoveMessage icr om)
        = (validateMessagesLoop .invalidCharacterRemoveMessage icr [] om) from rfl,
        validateMessagesLoop_removeMessage])

/-- C9 counterexample to the claim as stated: under the default policy a
stored message whose text is just `"|"` is not merely stripped to the
empty text — the whole message is dropped from the list. -/
theorem validateMessages_default_policy_counterexample :
    (validateMessagesList .invalidCharacterRemove ""
        [{ Status := WARNING, Message := "|" }]).2 = []
    ∧ (validateMessagesList .invalidCharacterRemove ""
        [{ Status := WARNING, Message := "|" }]).2
      ≠ [{ Status := WARNING, Message := "" }] := by
  refine ⟨by decide, by decide⟩

/-- Witness for C9: a message "a|b" is dropped under the remove-message
policy while the valid message stays, and validating a CRITICAL response
configured with that policy leaves the status code at CRITICAL. -/
theorem validateMessages_remove_policies_spec_witness :
    validateMessagesList .invalidCharacterRemoveMessage ""
        [{ Status := 2, Message := "a|b" }, { Status := 1, Message := "fine" }]
      = (none, [{ Status := 1, Message := "fine" }])
    ∧ ((((NewResponse "ok").UpdateStatus CRITICAL "a|b").SetInvalidCharacterBehavior
          .invalidCharacterRemoveMessage "").1.validate).statusCode = 2 := by
  refine ⟨(validateMessages_remove_policies_spec ""
      [{ Status := 2, Message := "a|b" }, { Status := 1, Message := "fine" }]
      (NewResponse "ok")).1.trans (by decide), ?_⟩
  exact ((validateMessages_remove_policies_spec "" []
      ((((NewResponse "ok").UpdateStatus CRITICAL "a|b").SetInvalidCharacterBehavior
        .invalidCharacterRemoveMessage "").1)).2.1 (by decide)).trans (by decide)

/-! ### C10 -/

theorem validateMessagesLoop_replaceWithError (rc : String) :
    ∀ (l : List OutputMessage) (m : OutputMessage) (acc : List OutputMessage),
      l.find? (fun x => hasPipe x.Message) = some m →
      (validateMessagesLoop .invalidCharacterReplaceWithError rc acc l
         = (none, [{ Status := m.Status,
                     Message := "output message contains invalid character" }])
       ∧ validateMessagesLoop .invalidCharacterReplaceWithErrorAndSetUNKNOWN
           rc acc l
         = (some UNKNOWN,
            [{ Status := UNKNOWN,
               Message := "output message contains invalid character" }])) := by
  intro l
  induction l with
  | nil => intro m acc h; simp [List.find?] at h
  | cons x rest ih =>
    intro m acc h
    cases hp : hasPipe x.Message with
    | true =>
      simp only [List.find?, hp] at h
      obtain rfl : x = m := by injection h
      unfold validateMessagesLoop
      simp [hp]
    | false =>
      simp only [List.find?, hp] at h
      unfold validateMessagesLoop
      simp only [hp, Bool.not_false, if_true]
      exact ih m _ h

/-- C10: under the two replace-with-error policies, if any stored message
contains `'|'` then validation replaces the entire message list by the
single message "output message contains invalid character" (carrying the
first offender's status, or UNKNOWN with the status forced to UNKNOWN),
discarding every other message before and after the first offender. -/
theorem validateMessages_replaceWithError_spec (rc : String)
    (l : List OutputMessage) (m : OutputMessage)
    (h : l.find? (fun x => hasPipe x.Message) = some m) :
    validateMessagesList .invalidCharacterReplaceWithError rc l
      = (none, [{ Status := m.Status,
                  Message := "output message contains invalid character" }])
    ∧ validateMessagesList .invalidCharacterReplaceWithErrorAndSetUNKNOWN rc l
      = (some UNKNOWN,
         [{ Status := UNKNOWN,
            Message := "output message contains invalid character" }]) :=
  validateMessagesLoop_replaceWithError rc l m [] h

/-- Witness for C10: with a valid message before and after the offender
"test|", both policies collapse the whole list to the single error
message. -/
theorem validateMessages_replaceWithError_spec_witness :
    validateMessagesList .invalidCharacterReplaceWithError ""
        [{ Status := 0, Message := "good" }, { Status := 1, Message := "test|" },
         { Status := 2, Message := "after" }]
      = (none, [{ Status := 1,
                  Message := "output message contains invalid character" }])
    ∧ validateMessagesList .invalidCharacterReplaceWithErrorAndSetUNKNOWN ""
        [{ Status := 0, Message := "good" }, { Status := 1, Message := "test|" },
         { Status := 2, Message := "after" }]
      = (some UNKNOWN,
         [{ Status := UNKNOWN,
            Message := "output message contains invalid character" }]) :=
  validateMessages_replaceWithError_spec ""
    [{ Status := 0, Message := "good" }, { Status := 1, Message := "test|" },
     { Status := 2, Message := "after" }]
    { Status := 1, Message := "test|" } (by decide)

end GoMonitoringPlugin
